import Mathlib

/-!
# Verification of `analyze-trace-dir`

A shallow embedding of `src/analyze-trace-dir.ts`: discovery of trace/types
project pairs (manifest `legend.json` or directory scan), classification of
analyzer subprocess outcomes, deterministic ranking, report generation, and
the process-wide exit code.

Conventions of the embedding:
* JavaScript strings are Lean `String`s; `exitCode : number | undefined` is
  `Option Int`; `signal : NodeJS.Signals | undefined` is `Option String`
  (signal names are never the empty string, so JS truthiness of the field is
  `Option.isSome`).
* `String.localeCompare` is modelled as the lexicographic order on `String`
  (Mathlib's linear order, lexicographic on character codes).
* `Array.prototype.sort` is a stable sort by a comparator; it is modelled by
  `List.mergeSort` with the Boolean predicate `comparator a b ≤ 0`.
* Node `path` functions are modelled over POSIX paths, with absolute
  directories represented by their list of components.
-/

/-! ## Data model (`Project`, `ProjectResult`) -/

structure Project where
  configFilePath : Option String
  tracePath : String
  typesPath : String
  deriving DecidableEq, Repr

structure ProjectResult where
  project : Project
  stdout : String
  stderr : String
  exitCode : Option Int
  signal : Option String
  deriving DecidableEq, Repr

/-- `hadHighlights` entries: `{...result, score}` in the source. -/
structure ScoredResult extends ProjectResult where
  score : Nat
  deriving DecidableEq, Repr

/-! ## Score extraction

The source scans `result.stdout` with the regular expression
`/\((\d+)[ ]*ms\)/` and converts the first captured digit group to a number
(`const match = result.stdout.match(...); const score = match ? +match[1] : 0`).
Because the characters after the greedy digit run cannot re-match `\d`, ` `
or `m`, backtracking never changes the outcome: the regex matches at a
position iff that position holds `'('`, then a maximal nonempty digit run,
then zero or more spaces, then `"ms)"`. -/

/-- Numeric value of a digit-character run (the regex group is `\d+`). -/
def natOfDigits (ds : List Char) : Nat :=
  ds.foldl (fun n c => n * 10 + (c.toNat - 48)) 0

/-- Attempt to match `\((\d+)[ ]*ms\)` at the head of the character list,
returning the captured number. -/
def matchMsAt (cs : List Char) : Option Nat :=
  match cs with
  | [] => none
  | c :: rest =>
    if c = '(' then
      let ds := rest.takeWhile Char.isDigit
      if ds.isEmpty then none
      else
        let afterSpaces := (rest.drop ds.length).dropWhile (fun c2 => c2 = ' ')
        if ['m', 's', ')'].isPrefixOf afterSpaces then some (natOfDigits ds) else none
    else none

/-- Leftmost match of `\((\d+)[ ]*ms\)`: the regex engine tries each start
position left to right. -/
def firstMsScore : List Char → Option Nat
  | [] => none
  | c :: cs =>
    match matchMsAt (c :: cs) with
    | some n => some n
    | none => firstMsScore cs

/-- `const score = match ? +match[1] : 0`. -/
def scoreOf (stdout : String) : Nat :=
  (firstMsScore stdout.data).getD 0

/-! ## Outcome classification (the loop at the top of `analyzeProjects`) -/

/-- JS truthiness of `result.exitCode : number | undefined`. -/
def exitCodeTruthy (o : Option Int) : Bool :=
  match o with
  | some c => c ≠ 0
  | none => false

/-- The classifying loop of `analyzeProjects`, producing `hadHighlights`
(in encounter order, with scores) and `hadErrors` (in encounter order):

```
if (result.stderr || result.signal) { hadErrors.push(result); continue; }
if (result.exitCode) { if (result.exitCode !== 1) hadErrors.push(result); continue; }
const match = result.stdout.match(...); const score = match ? +match[1] : 0;
hadHighlights.push({...result, score});
``` -/
def classifyLoop : List ProjectResult → List ScoredResult × List ProjectResult
  | [] => ([], [])
  | r :: rs =>
    let rest := classifyLoop rs
    if r.stderr ≠ "" ∨ r.signal.isSome then
      (rest.1, r :: rest.2)
    else if exitCodeTruthy r.exitCode then
      if r.exitCode ≠ some 1 then (rest.1, r :: rest.2) else rest
    else
      ({ r with score := scoreOf r.stdout } :: rest.1, rest.2)

/-- The three outcome kinds of the specification's Outcome Classifier. -/
inductive Classification where
  | error : Classification
  | nothingFound : Classification
  | highlight : Nat → Classification
  deriving DecidableEq, Repr

/-- The specification's classification rules, stated as written (priority
order: stderr/signal, then non-zero exit code other than 1, then exit code 1,
else Highlight with the extracted score). Used to check the loop above. -/
def classifySpec (r : ProjectResult) : Classification :=
  if r.stderr ≠ "" ∨ r.signal.isSome then Classification.error
  else
    match r.exitCode with
    | some c =>
      if c ≠ 0 ∧ c ≠ 1 then Classification.error
      else if c = 1 then Classification.nothingFound
      else Classification.highlight (scoreOf r.stdout)
    | none => Classification.highlight (scoreOf r.stdout)

def highlightOfSpec (r : ProjectResult) : Option ScoredResult :=
  match classifySpec r with
  | Classification.highlight s => some { r with score := s }
  | _ => none

/-- Whether a classification is a Highlight. -/
def isHighlightC : Classification → Bool
  | Classification.highlight _ => true
  | _ => false

/-! ## Node `path` model (POSIX)

`path.basename(p)`: ignore trailing separators, return the characters after
the last remaining separator. `path.resolve(dir, rel)` for an absolute `dir`
and relative `rel`: append the components of `rel` to those of `dir` and
normalize, where `.` segments are dropped and `..` pops the previous
component (saturating at the root). An absolute path is represented by its
list of components (each nonempty and free of the separator). -/

/-- `path.basename`, on character lists. -/
def basenameChars (cs : List Char) : List Char :=
  ((cs.reverse.dropWhile (fun c => c = '/')).takeWhile (fun c => c ≠ '/')).reverse

/-- `path.basename` on strings. -/
def basenameP (s : String) : String :=
  String.mk (basenameChars s.data)

/-- Split a character list at separators, dropping empty components. -/
def splitCompsAux : List Char → List Char → List (List Char)
  | [], acc => if acc = [] then [] else [acc.reverse]
  | c :: cs, acc =>
    if c = '/' then
      if acc = [] then splitCompsAux cs [] else acc.reverse :: splitCompsAux cs []
    else splitCompsAux cs (c :: acc)

/-- Path components of a string (separator-split, empty components dropped). -/
def splitPath (s : String) : List String :=
  (splitCompsAux s.data []).map String.mk

/-- One normalization step: `.` and empty segments are dropped, `..` pops,
anything else is appended. -/
def normStep (acc : List String) (c : String) : List String :=
  if c = "." ∨ c = "" then acc
  else if c = ".." then acc.dropLast
  else acc ++ [c]

/-- Normalize a component list (absolute path: `..` at the root is dropped). -/
def normComps (cs : List String) : List String :=
  cs.foldl normStep []

/-- `path.resolve(dir, rel)` for an absolute directory given by components
`dirComps` and a relative path `rel`, as components. -/
def resolveComps (dirComps : List String) (rel : String) : List String :=
  normComps (dirComps ++ splitPath rel)

/-- Render components back into an absolute path string. -/
def joinComps (cs : List String) : String :=
  cs.foldl (fun acc c => acc ++ "/" ++ c) ""

/-- `path.resolve(dir, rel)` on strings (absolute `dir`). -/
def resolveStr (dir : String) (rel : String) : String :=
  joinComps (resolveComps (splitPath dir) rel)

/-- `path.join(dir, name)` for a plain file name free of separators. -/
def joinPath (dir : String) (name : String) : String :=
  dir ++ "/" ++ name

/-! ## Report generation (`analyzeProjects` after the classification loop) -/

/-- `getProjectDescription` from the source. -/
def getProjectDescription (project : Project) : String :=
  match project.configFilePath with
  | some cfg => cfg ++ " (" ++ basenameP project.tracePath ++ ")"
  | none => basenameP project.tracePath

/-- The `console.log` calls made for one highlight entry: the description
line when `projectCount > 1 || project.configFilePath`, then the stdout. -/
def highlightBlock (projectCount : Nat) (result : ScoredResult) : List String :=
  (if projectCount > 1 ∨ result.project.configFilePath.isSome then
    ["Analyzed " ++ getProjectDescription result.project]
  else []) ++ [result.stdout]

/-- The detail line(s) after the `Error analyzing …` header: stderr if
non-empty, else the exit code if truthy, else the signal if present. -/
def errorDetail (errorResult : ProjectResult) : List String :=
  if errorResult.stderr ≠ "" then [errorResult.stderr]
  else if exitCodeTruthy errorResult.exitCode then
    ["Exited with code " ++ toString (errorResult.exitCode.getD 0)]
  else
    match errorResult.signal with
    | some sig => ["Terminated with signal " ++ sig]
    | none => []

/-- The `console.log` calls made for one error entry. -/
def errorBlock (errorResult : ProjectResult) : List String :=
  ("Error analyzing " ++ getProjectDescription errorResult.project) ::
    errorDetail errorResult

/-- The trailing `Found nothing in …` block, printed only when
`interestingCount < projectCount`. -/
def foundNothingBlock (projectCount interestingCount : Nat) : List (List String) :=
  if interestingCount < projectCount then
    [["Found nothing in " ++ toString (projectCount - interestingCount) ++
      (if interestingCount ≠ 0 then " other" else "") ++ " project(s)"]]
  else []

/-- The `first` flag of the source prints one empty `console.log()` before
every block except the first; every block is nonempty, so this is exactly
interleaving `""` between blocks. -/
def joinBlocks : List (List String) → List String
  | [] => []
  | b :: bs => b ++ bs.foldr (fun blk acc => "" :: (blk ++ acc)) []

/-- The sort comparator `(a, b) => b.score - a.score || a.project.tracePath.localeCompare(b.project.tracePath)`,
as the Boolean predicate `comparator a b ≤ 0` used by the stable-sort model. -/
def highlightLE (a b : ScoredResult) : Bool :=
  decide (b.score < a.score) ||
    (a.score == b.score && decide (a.project.tracePath ≤ b.project.tracePath))

/-- `hadHighlights.sort(...)`: a stable sort by the comparator. -/
def sortHighlights (hadHighlights : List ScoredResult) : List ScoredResult :=
  hadHighlights.mergeSort highlightLE

/-- `analyzeProjects`, as a function of the list of per-project results (one
per project, in project order, as delivered by `Promise.all`): the pair of
the sequence of `console.log`ged strings and the returned status code. -/
def analyzeProjects (results : List ProjectResult) : List String × Nat :=
  let classified := classifyLoop results
  let hadHighlights := classified.1
  let hadErrors := classified.2
  let projectCount := results.length
  let sorted := sortHighlights hadHighlights
  let interestingCount := hadHighlights.length + hadErrors.length
  (joinBlocks
      (sorted.map (highlightBlock projectCount) ++ hadErrors.map errorBlock ++
        foundNothingBlock projectCount interestingCount),
   if hadErrors.length > 0 then 2
   else if hadHighlights.length > 0 then 0
   else 1)

/-! ## Work discovery (`main`)

The filesystem interactions of `main` are passed in as values: whether
`legend.json` is a file, the outcome of reading-and-parsing it (an exception
models a thrown `JSON.parse`/read error), and the directory entry listing.
JS note: after a successful parse `projects` is an array — possibly empty —
and an empty array is truthy, so the `if (!projects)` fallback runs only
when no parse result was obtained. The `Option` below captures exactly
this. -/

/-- One record of `legend.json`. -/
structure ManifestEntry where
  configFilePath : Option String
  tracePath : String
  typesPath : String
  deriving DecidableEq, Repr

/-- One `fs.Dirent` of `readdir(traceDir, { withFileTypes: true })`. -/
structure DirEntry where
  name : String
  isFile : Bool
  deriving DecidableEq, Repr

/-- `name.match(/^trace(.*\.json)$/)`: the captured group (everything after
the literal `trace`, which must end in `.json`), when the name matches.
Stated over the character list so that it computes by kernel reduction. -/
def traceMatch (name : String) : Option String :=
  if ['t', 'r', 'a', 'c', 'e'].isPrefixOf name.data ∧
      ['.', 'j', 's', 'o', 'n'].isSuffixOf (name.data.drop 5) then
    some (String.mk (name.data.drop 5))
  else none

/-- The directory-scanning fallback of `main`: plain files whose name
matches `trace<suffix>.json`, paired with `types<suffix>.json`. -/
def scanProjects (traceDir : String) (entries : List DirEntry) : List Project :=
  entries.filterMap (fun entry =>
    if entry.isFile then
      (traceMatch entry.name).map (fun suffix =>
        { configFilePath := none,
          tracePath := joinPath traceDir entry.name,
          typesPath := joinPath traceDir ("types" ++ suffix) })
    else none)

/-- Re-rooting of one manifest entry:
`project.tracePath = path.resolve(traceDir, path.basename(project.tracePath))`
and likewise for `typesPath`. -/
def rerootProject (traceDir : String) (entry : ManifestEntry) : Project :=
  { configFilePath := entry.configFilePath,
    tracePath := resolveStr traceDir (basenameP entry.tracePath),
    typesPath := resolveStr traceDir (basenameP entry.typesPath) }

/-- The legend-reading phase of `main`: when `legend.json` is a file, a
successful read-and-parse yields the re-rooted projects; a thrown error is
logged (`console.error`) and leaves `projects` undefined. -/
def legendPhase (traceDir : String) (legendIsFile : Bool)
    (parsedLegend : Except String (List ManifestEntry)) :
    List String × Option (List Project) :=
  if legendIsFile then
    match parsedLegend with
    | Except.ok entries => ([], some (entries.map (rerootProject traceDir)))
    | Except.error msg => (["Error reading legend file: " ++ msg], none)
  else ([], none)

/-- Project discovery in `main`: the legend phase, then — only `if
(!projects)`, i.e. only when the legend phase produced no value — the
directory-scanning fallback. Returns the `console.error` log and the
projects. -/
def discoverProjects (traceDir : String) (legendIsFile : Bool)
    (parsedLegend : Except String (List ManifestEntry)) (entries : List DirEntry) :
    List String × List Project :=
  let phase := legendPhase traceDir legendIsFile parsedLegend
  match phase.2 with
  | some projects => (phase.1, projects)
  | none => (phase.1, scanProjects traceDir entries)

/-- The bounded executor: `Promise.all(projects.map(p => limit(analyzeProject, p)))`
delivers one result per project, in project order; the analyzer run itself
is the environment-supplied function `runAnalyzer`. -/
def runProjects (runAnalyzer : Project → ProjectResult) (projects : List Project) :
    List ProjectResult :=
  projects.map runAnalyzer

/-- `main`: discovery, execution, report. Returns the `console.error` log,
the `console.log` output, and the status code handed to `process.exit`. -/
def mainRun (runAnalyzer : Project → ProjectResult) (traceDir : String)
    (legendIsFile : Bool) (parsedLegend : Except String (List ManifestEntry))
    (entries : List DirEntry) : List String × List String × Nat :=
  let disc := discoverProjects traceDir legendIsFile parsedLegend entries
  let report := analyzeProjects (runProjects runAnalyzer disc.2)
  (disc.1, report.1, report.2)

/-! ## Per-project analyzer invocation (`analyzeProject`, `isFile`) -/

/-- The part of an `fs.Stats` object that `isFile` consults. -/
structure Stats where
  isFile : Bool
  deriving DecidableEq, Repr

/-- `isFile` from the source:
`fs.promises.stat(path).then(stats => stats.isFile()).catch(_ => false)`;
the outcome of `fs.promises.stat` (value or rejection) is passed in. -/
def isFile (statResult : Except String Stats) : Bool :=
  match statResult with
  | Except.ok stats => stats.isFile
  | Except.error _ => false

/-- Modelled from the spec: `pushCommandLineOptions(args, argv)` is defined
in `analyze-trace-options.ts`, which is not among the analyzed sources; per
the spec it appends "the forwarded command-line options the outer tool was
invoked with" to the argument array. -/
def pushCommandLineOptions (args : List String) (forwardedOptions : List String) :
    List String :=
  args ++ forwardedOptions

/-- The argument list built by `analyzeProject`: the trace path; then the
types path, pushed only when `isFile` holds of its stat outcome; then the
forwarded options. -/
def analyzeProjectArgs (project : Project) (typesStat : Except String Stats)
    (forwardedOptions : List String) : List String :=
  let args := [project.tracePath]
  let args := if isFile typesStat then args ++ [project.typesPath] else args
  pushCommandLineOptions args forwardedOptions

/-! ## Sample inputs used by concrete instantiations -/

/-- A trivial analyzer outcome used to instantiate the pipeline. -/
def nullAnalyzer (p : Project) : ProjectResult :=
  { project := p, stdout := "", stderr := "", exitCode := some 0, signal := none }

/-- A manifest entry whose trace-file name is the traversal segment `..`. -/
def evilEntry : ManifestEntry :=
  { configFilePath := none, tracePath := (".."), typesPath := ("types1.json") }

/-- A sample highlight result (no label). -/
def sampleHighlight : ScoredResult :=
  { project :=
      { configFilePath := none,
        tracePath := ("/d/trace1.json"),
        typesPath := ("/d/types1.json") },
    stdout := ("out (5ms)"), stderr := "", exitCode := some 0, signal := none, score := 5 }

/-- A sample error result (non-empty stderr, no label). -/
def sampleError : ProjectResult :=
  { project :=
      { configFilePath := none,
        tracePath := ("/d/trace2.json"),
        typesPath := ("/d/types2.json") },
    stdout := "", stderr := ("boom"), exitCode := none, signal := none }

/-- The ordering the report's highlight section must satisfy: descending
score, exact ties by ascending trace path. -/
def highlightOrder (a b : ScoredResult) : Prop :=
  b.score < a.score ∨ (a.score = b.score ∧ a.project.tracePath ≤ b.project.tracePath)

/-! ## Helper lemmas -/

theorem classifyLoop_eq_spec (rs : List ProjectResult) :
    classifyLoop rs =
      (rs.filterMap highlightOfSpec,
       rs.filter (fun r => classifySpec r = Classification.error)) := by
  induction rs with
  | nil => rfl
  | cons r rs ih =>
    simp only [classifyLoop, ih, List.filterMap_cons, List.filter_cons,
      highlightOfSpec, classifySpec]
    by_cases h1 : r.stderr ≠ "" ∨ r.signal.isSome
    · simp [h1]
    · simp only [h1, if_false, if_neg h1]
      match hc : r.exitCode with
      | none => simp [exitCodeTruthy]
      | some c =>
        by_cases hz : c = 0
        · subst hz
          simp [exitCodeTruthy]
        · by_cases ho : c = 1
          · subst ho
            simp [exitCodeTruthy]
          · simp [exitCodeTruthy, hz, ho]

theorem highlightOfSpec_isSome (r : ProjectResult) :
    (highlightOfSpec r).isSome = isHighlightC (classifySpec r) := by
  unfold highlightOfSpec isHighlightC
  cases classifySpec r <;> rfl

theorem highlightLE_iff (a b : ScoredResult) :
    highlightLE a b = true ↔ highlightOrder a b := by
  simp [highlightLE, highlightOrder, Bool.or_eq_true, Bool.and_eq_true,
    decide_eq_true_iff, beq_iff_eq]

theorem highlightLE_trans (a b c : ScoredResult) :
    highlightLE a b → highlightLE b c → highlightLE a c := by
  intro hab hbc
  rw [highlightLE_iff] at *
  rcases hab with h1 | ⟨h1, h1p⟩ <;> rcases hbc with h2 | ⟨h2, h2p⟩
  · exact Or.inl (Nat.lt_trans h2 h1)
  · exact Or.inl (h2 ▸ h1)
  · exact Or.inl (h1 ▸ h2)
  · exact Or.inr ⟨h1.trans h2, le_trans h1p h2p⟩

theorem highlightLE_total (a b : ScoredResult) :
    highlightLE a b || highlightLE b a := by
  rw [Bool.or_eq_true, highlightLE_iff, highlightLE_iff]
  rcases Nat.lt_trichotomy a.score b.score with h | h | h
  · exact Or.inr (Or.inl h)
  · rcases le_total a.project.tracePath b.project.tracePath with hp | hp
    · exact Or.inl (Or.inr ⟨h, hp⟩)
    · exact Or.inr (Or.inr ⟨h.symm, hp⟩)
  · exact Or.inl (Or.inl h)

theorem basenameChars_no_slash (cs : List Char) : '/' ∉ basenameChars cs := by
  unfold basenameChars
  intro h
  rw [List.mem_reverse] at h
  have := List.mem_takeWhile_imp h
  simp at this

theorem splitCompsAux_no_slash (cs : List Char) (acc : List Char)
    (h : ∀ c ∈ cs, c ≠ '/') :
    splitCompsAux cs acc = if acc.reverse ++ cs = [] then [] else [acc.reverse ++ cs] := by
  induction cs generalizing acc with
  | nil =>
    simp [splitCompsAux]
  | cons c cs ih =>
    have hc : c ≠ '/' := h c (List.mem_cons_self c cs)
    rw [splitCompsAux, if_neg hc, ih (c :: acc) (fun x hx => h x (List.mem_cons_of_mem c hx))]
    have h1 : (c :: acc).reverse ++ cs ≠ [] := by simp
    have h2 : acc.reverse ++ (c :: cs) ≠ [] := by simp
    rw [if_neg h1, if_neg h2]
    simp

theorem splitPath_basenameP (name : String) :
    splitPath (basenameP name) =
      if basenameChars name.data = [] then [] else [basenameP name] := by
  have hns : ∀ c ∈ basenameChars name.data, c ≠ '/' := by
    intro c hc heq
    exact basenameChars_no_slash name.data (heq ▸ hc)
  unfold splitPath basenameP
  rw [show (String.mk (basenameChars name.data)).data = basenameChars name.data from rfl]
  rw [splitCompsAux_no_slash _ [] hns]
  by_cases hb : basenameChars name.data = []
  · rw [if_pos (by simpa using hb), if_pos hb]
    rfl
  · rw [if_neg (by simpa using hb), if_neg hb]
    rfl

theorem normComps_clean (l : List String) (acc : List String)
    (h : ∀ c ∈ l, c ≠ "" ∧ c ≠ "." ∧ c ≠ "..") :
    List.foldl normStep acc l = acc ++ l := by
  induction l generalizing acc with
  | nil => simp
  | cons c cs ih =>
    obtain ⟨h1, h2, h3⟩ := h c (List.mem_cons_self c cs)
    have hstep : normStep acc c = acc ++ [c] := by
      unfold normStep
      rw [if_neg (by tauto), if_neg h3]
    rw [List.foldl_cons, hstep, ih _ (fun x hx => h x (List.mem_cons_of_mem c hx))]
    simp

theorem analyzeProjects_nil : analyzeProjects [] = ([], 1) := by
  simp [analyzeProjects, classifyLoop, sortHighlights, joinBlocks, foundNothingBlock]

/-! ## Claim theorems -/

/-- C1: for every classified result set, the status code returned by
`analyzeProjects` is 2 if at least one result is classified Error; otherwise
0 if at least one result is classified Highlight; otherwise 1. -/
theorem C1_final_status (results : List ProjectResult) :
    (analyzeProjects results).2 =
      if results.any (fun r => classifySpec r = Classification.error) then 2
      else if results.any (fun r => isHighlightC (classifySpec r)) then 0
      else 1 := by
  show (if (classifyLoop results).2.length > 0 then 2
    else if (classifyLoop results).1.length > 0 then 0 else 1) = _
  rw [classifyLoop_eq_spec]
  dsimp only
  by_cases herr : results.any (fun r => classifySpec r = Classification.error)
  · rw [if_pos herr]
    rw [List.any_eq_true] at herr
    obtain ⟨r, hr, hrc⟩ := herr
    have hmem : r ∈ results.filter (fun r => decide (classifySpec r = Classification.error)) :=
      List.mem_filter.mpr ⟨hr, hrc⟩
    rw [if_pos (List.length_pos.mpr (List.ne_nil_of_mem hmem))]
  · rw [if_neg herr]
    have hfilter : results.filter (fun r => decide (classifySpec r = Classification.error)) = [] := by
      rw [List.filter_eq_nil_iff]
      intro a ha hcontra
      exact herr (List.any_eq_true.mpr ⟨a, ha, hcontra⟩)
    rw [hfilter]
    simp only [List.length_nil, gt_iff_lt, Nat.lt_irrefl, if_false]
    by_cases hhl : results.any (fun r => isHighlightC (classifySpec r))
    · rw [if_pos hhl]
      rw [List.any_eq_true] at hhl
      obtain ⟨r, hr, hrc⟩ := hhl
      obtain ⟨s, hs⟩ := Option.isSome_iff_exists.mp (by rw [highlightOfSpec_isSome]; exact hrc)
      have hmem : s ∈ results.filterMap highlightOfSpec :=
        List.mem_filterMap.mpr ⟨r, hr, hs⟩
      rw [if_pos (List.length_pos.mpr (List.ne_nil_of_mem hmem))]
    · rw [if_neg hhl]
      rw [if_neg]
      intro hlen
      apply hhl
      obtain ⟨x, hx⟩ := List.exists_mem_of_ne_nil _ (List.length_pos.mp hlen)
      obtain ⟨r, hr, hfr⟩ := List.mem_filterMap.mp hx
      refine List.any_eq_true.mpr ⟨r, hr, ?_⟩
      rw [← highlightOfSpec_isSome, hfr]
      rfl

/-- C2: the classifying loop assigns each result exactly one classification
by the priority rules of `classifySpec` (stderr or signal → Error; else a
non-zero exit code other than 1 → Error; else exit code 1 → NothingFound;
else Highlight with the first parenthesized millisecond value of stdout, or
0 when none): the highlights are precisely the results classified Highlight,
with their scores, and the errors precisely those classified Error. -/
theorem C2_classifier_priority (results : List ProjectResult) :
    (classifyLoop results).1 = results.filterMap highlightOfSpec ∧
    (classifyLoop results).2 =
      results.filter (fun r => classifySpec r = Classification.error) := by
  rw [classifyLoop_eq_spec]
  exact ⟨rfl, rfl⟩

/-- C3: the printed report consists of the highlight entries — a permutation
of the classified highlights ordered by descending score with exact ties
broken by ascending trace path — followed by the error entries in the order
the errors were encountered, followed by the found-nothing summary. -/
theorem C3_report_order (results : List ProjectResult) :
    List.Perm (sortHighlights (classifyLoop results).1) (classifyLoop results).1 ∧
    List.Pairwise highlightOrder (sortHighlights (classifyLoop results).1) ∧
    (classifyLoop results).2 =
      results.filter (fun r => classifySpec r = Classification.error) ∧
    (analyzeProjects results).1 =
      joinBlocks
        ((sortHighlights (classifyLoop results).1).map (highlightBlock results.length) ++
          (classifyLoop results).2.map errorBlock ++
          foundNothingBlock results.length
            ((classifyLoop results).1.length + (classifyLoop results).2.length)) := by
  refine ⟨List.mergeSort_perm _ _, ?_, ?_, rfl⟩
  · exact (List.sorted_mergeSort highlightLE_trans highlightLE_total _).imp
      (fun h => (highlightLE_iff _ _).1 h)
  · exact congrArg Prod.snd (classifyLoop_eq_spec results)

/-- C4 counterexample: a run over a directory with no manifest and no
matching trace files prints no output line at all — in particular not the
line `found nothing in 0 project(s)` claimed by the spec — and exits 1. -/
theorem C4_counterexample :
    mainRun nullAnalyzer ("/traces") false (Except.error ("unused")) [] = ([], [], 1) ∧
    (mainRun nullAnalyzer ("/traces") false (Except.error ("unused")) []).2.1 ≠
      ["found nothing in 0 project(s)"] := by
  have hdisc : discoverProjects ("/traces") false (Except.error ("unused")) [] = ([], []) := rfl
  have hmain : mainRun nullAnalyzer ("/traces") false (Except.error ("unused")) [] =
      ([], [], 1) := by
    simp only [mainRun, hdisc, runProjects, List.map_nil, analyzeProjects_nil]
  refine ⟨hmain, ?_⟩
  rw [hmain]
  intro hcontra
  exact List.noConfusion hcontra

/-- C4 (amended): for every valid target directory with no manifest and zero
matching trace files, the tool prints nothing at all (no `console.log`
output, in particular no found-nothing line) and exits with status 1. -/
theorem C4_zero_projects (runAnalyzer : Project → ProjectResult) (traceDir : String)
    (parsedLegend : Except String (List ManifestEntry)) (entries : List DirEntry)
    (h : ∀ e ∈ entries, e.isFile = true → traceMatch e.name = none) :
    mainRun runAnalyzer traceDir false parsedLegend entries = ([], [], 1) := by
  have hdisc : discoverProjects traceDir false parsedLegend entries =
      ([], scanProjects traceDir entries) := rfl
  have hscan : scanProjects traceDir entries = [] := by
    simp only [scanProjects]
    rw [List.filterMap_eq_nil_iff]
    intro e he
    by_cases hf : e.isFile
    · rw [if_pos hf, h e he hf]; rfl
    · rw [if_neg hf]
  simp only [mainRun, hdisc, hscan, runProjects, List.map_nil, analyzeProjects_nil]

/-- C4 witness: the amended statement at a concrete directory holding one
non-matching plain file and one subdirectory. -/
theorem C4_zero_projects_witness :
    mainRun nullAnalyzer ("/traces") false (Except.error ("unused2"))
      [{ name := ("readme.txt"), isFile := true }, { name := ("sub"), isFile := false }] =
      ([], [], 1) :=
  C4_zero_projects _ _ _ _ (by decide)

/-- C5 counterexample: the manifest entry naming `..` as its trace file is
re-rooted to the parent of the target directory `/home/user/traces` — the
resolved path escapes the target directory. -/
theorem C5_counterexample :
    (rerootProject ("/home/user/traces") evilEntry).tracePath = ("/home/user") ∧
    ¬ List.IsPrefix (splitPath ("/home/user/traces"))
        (splitPath (rerootProject ("/home/user/traces") evilEntry).tracePath) := by
  exact ⟨rfl, by decide⟩

/-- C5 (amended): for every manifest-supplied name whose base filename is
not `..`, resolving the target directory (assumed absolute and normalized)
against the base filename never escapes the target directory. -/
theorem C5_reroot_no_escape (dirComps : List String) (name : String)
    (hdir : ∀ c ∈ dirComps, c ≠ "" ∧ c ≠ "." ∧ c ≠ "..")
    (hname : basenameP name ≠ "..") :
    List.IsPrefix dirComps (resolveComps dirComps (basenameP name)) := by
  unfold resolveComps
  rw [splitPath_basenameP]
  by_cases hb : basenameChars name.data = []
  · rw [if_pos hb, List.append_nil]
    unfold normComps
    rw [normComps_clean _ _ hdir, List.nil_append]
  · rw [if_neg hb]
    unfold normComps
    rw [List.foldl_append, normComps_clean _ _ hdir, List.nil_append, List.foldl_cons,
      List.foldl_nil]
    by_cases hdot : basenameP name = "." ∨ basenameP name = ""
    · rw [show normStep dirComps (basenameP name) = dirComps from by
        unfold normStep; rw [if_pos hdot]]
    · rw [show normStep dirComps (basenameP name) = dirComps ++ [basenameP name] from by
        unfold normStep; rw [if_neg hdot, if_neg hname]]
      exact List.prefix_append dirComps _

/-- C5 witness: the spec's own round-trip example — a traversal-style name
`../../evil.json` resolves to a path inside `/home/user/traces`. -/
theorem C5_reroot_no_escape_witness :
    List.IsPrefix (splitPath ("/home/user/traces"))
      (resolveComps (splitPath ("/home/user/traces")) (basenameP ("../../evil.json"))) :=
  C5_reroot_no_escape _ _ (by decide) (by decide)

/-- C6: when the manifest exists but its read/parse throws, discovery logs
the error, falls back to the directory scan, and returns normally. -/
theorem C6_legend_parse_failure (traceDir msg : String) (entries : List DirEntry) :
    discoverProjects traceDir true (Except.error msg) entries =
      (["Error reading legend file: " ++ msg], scanProjects traceDir entries) := rfl

/-- C7: the analyzer is invoked with the trace path, then the types path
exactly when its stat outcome satisfies `isFile`, then the forwarded
command-line options, in that order. -/
theorem C7_analyzer_args (project : Project) (typesStat : Except String Stats)
    (forwardedOptions : List String) :
    analyzeProjectArgs project typesStat forwardedOptions =
      [project.tracePath] ++ (if isFile typesStat then [project.typesPath] else []) ++
        forwardedOptions := by
  unfold analyzeProjectArgs pushCommandLineOptions
  by_cases h : isFile typesStat <;> simp [h]

/-- C8: a highlight entry carries the `Analyzed …` description line exactly
when more than one project was analyzed or the project is labeled, and only
the raw stdout otherwise; an error entry always carries the
`Error analyzing …` description line, regardless of the project count. -/
theorem C8_entry_description (projectCount : Nat) (r : ScoredResult) (e : ProjectResult) :
    (projectCount > 1 ∨ r.project.configFilePath.isSome = true →
      highlightBlock projectCount r =
        ["Analyzed " ++ getProjectDescription r.project, r.stdout]) ∧
    (projectCount = 1 → r.project.configFilePath = none →
      highlightBlock projectCount r = [r.stdout]) ∧
    errorBlock e =
      ("Error analyzing " ++ getProjectDescription e.project) :: errorDetail e := by
  refine ⟨?_, ?_, rfl⟩
  · intro h
    unfold highlightBlock
    rw [if_pos h]
    rfl
  · intro h1 h2
    unfold highlightBlock
    rw [if_neg, List.nil_append]
    intro hcond
    rcases hcond with hc | hc
    · rw [h1] at hc
      exact absurd hc (by decide)
    · rw [h2] at hc
      exact absurd hc (by decide)

/-- C8 witness: both prefix rules and the error rule at concrete entries. -/
theorem C8_entry_description_witness :
    highlightBlock 2 sampleHighlight =
      ["Analyzed " ++ getProjectDescription sampleHighlight.project, sampleHighlight.stdout] ∧
    highlightBlock 1 sampleHighlight = [sampleHighlight.stdout] ∧
    errorBlock sampleError =
      ("Error analyzing " ++ getProjectDescription sampleError.project) ::
        errorDetail sampleError :=
  ⟨(C8_entry_description 2 sampleHighlight sampleError).1 (Or.inl (by decide)),
   (C8_entry_description 1 sampleHighlight sampleError).2.1 rfl rfl,
   (C8_entry_description 1 sampleHighlight sampleError).2.2⟩

/-- C9: a manifest that parses to an empty entry list yields an empty
project set and never triggers the directory-scan fallback — the result is
independent of the directory contents. -/
theorem C9_empty_manifest (traceDir : String) (entries : List DirEntry) :
    discoverProjects traceDir true (Except.ok []) entries = ([], []) := rfl

/-- C10: a failed stat makes `isFile` return false rather than raise, so a
missing or unreadable types file only omits the types-path argument. -/
theorem C10_stat_failure (errMsg : String) (project : Project)
    (forwardedOptions : List String) :
    isFile (Except.error errMsg) = false ∧
    analyzeProjectArgs project (Except.error errMsg) forwardedOptions =
      [project.tracePath] ++ forwardedOptions := ⟨rfl, rfl⟩
